import Mathlib

/-!
Shallow embedding of `src/docker-scanner.py` (class `BitbucketDockerScanner`).

The embedding models:
  * `extract_base_images` — the Dockerfile FROM-line extractor, including the
    exact semantics of the Python regex
    `^\s*FROM\s+(?:--platform=[^\s]+\s+)?([^\s]+)(?:\s+AS\s+[^\s]+)?`
    under `re.IGNORECASE` and `re.match`, and the token classification
    conditional (with Python operator precedence);
  * the paginated listing loops `get_projects` and `get_repositories`
    (fuel-indexed, `none` meaning the loop has not finished within the fuel);
  * `search_dockerfiles`, `get_file_content` and the driving `scan`.

The HTTP transport is abstracted as a `Server`: a deterministic function from
request URL to response, one field for JSON page endpoints and one for the raw
content endpoint (the code sends constant query parameters per call site, so
they are not part of the model).  Page `values` carry the single field the code
reads from each item (project `key`, repository `slug`, or the file path
itself).  Character classes follow the ASCII meaning of Python's `\s`,
`str.isupper` and `str.strip`, which coincide with Python on the ASCII inputs
the claims are about.
-/

/-- ASCII whitespace, the characters matched by Python's regex `\s`
(and stripped by `str.strip`) on ASCII text. -/
def isSpace (c : Char) : Bool :=
  c = ' ' || c = '\t' || c = '\n' || c = '\r' || c = '\x0b' || c = '\x0c'

/-- Python `dockerfile_content.split('\n')` on the character list. -/
def splitNl : List Char → List (List Char)
  | [] => [[]]
  | c :: rest =>
    match splitNl rest with
    | [] => [[]]
    | h :: t => if c = '\n' then [] :: h :: t else (c :: h) :: t

/-- `line.strip().startswith('#')`: the first non-whitespace character of the
line is `#`. -/
def isCommentLine (l : List Char) : Bool :=
  match l.dropWhile isSpace with
  | '#' :: _ => true
  | _ => false

/-- Case-insensitive literal match (the effect of `re.IGNORECASE` on the
literal parts of the pattern): returns the remaining input when `s` starts
with `lit` up to ASCII case, otherwise `none`. -/
def dropLitCI : List Char → List Char → Option (List Char)
  | [], s => some s
  | _ :: _, [] => none
  | p :: ps, c :: cs => if p.toLower = c.toLower then dropLitCI ps cs else none

/-- The optional group `(?:--platform=[^\s]+\s+)?` of the FROM regex.  The
group participates in the match only when the literal, a nonempty non-space
value, at least one whitespace character, and a nonempty remainder for the
following capture `([^\s]+)` are all present; otherwise the regex engine
drops the optional group (backtracking) and the input is left untouched. -/
def dropPlatformFlag (r : List Char) : List Char :=
  match dropLitCI "--platform=".data r with
  | none => r
  | some rest =>
    let val := rest.takeWhile (fun c => !isSpace c)
    if val = [] then r
    else
      let rest2 := rest.dropWhile (fun c => !isSpace c)
      if rest2 = [] then r
      else
        let afterWs := rest2.dropWhile isSpace
        if afterWs = [] then r else afterWs

/-- `re.match(r'^\s*FROM\s+(?:--platform=[^\s]+\s+)?([^\s]+)(?:\s+AS\s+[^\s]+)?',
line, re.IGNORECASE)`: returns the capture group 1 (the image token) when the
line matches.  The trailing optional `AS` group never constrains the capture,
so it is not modelled. -/
def matchFromLine (l : List Char) : Option (List Char) :=
  let r := l.dropWhile isSpace
  match dropLitCI "from".data r with
  | none => none
  | some r1 =>
    match r1 with
    | [] => none
    | c :: _ =>
      if isSpace c then
        let r2 := (r1.dropWhile isSpace : List Char)
        let r3 := dropPlatformFlag r2
        match r3.takeWhile (fun c => !isSpace c) with
        | [] => none
        | tok => some tok
      else none

/-- `image.startswith('$')`. -/
def startsWithDollar (s : String) : Bool :=
  match s.data with
  | '$' :: _ => true
  | _ => false

/-- Python `c in image` for a single character. -/
def containsChar (s : String) (c : Char) : Bool :=
  s.data.contains c

/-- `any(c.isupper() for c in image)` (ASCII reading of `str.isupper`). -/
def hasUpper (s : String) : Bool :=
  s.data.any Char.isUpper

/-- The token classification of `extract_base_images`, lines 185–191:

    if not image.startswith('$') and ':' in image or '/' in image or '@' in image:
        images.add(image)
    elif not any(c.isupper() for c in image) and ':' not in image:
        continue
    else:
        images.add(image)

with Python precedence: the first condition is
`(not startswith '$' and ':' in image) or '/' in image or '@' in image`.
`true` means the token is added to the result set. -/
def keepImage (image : String) : Bool :=
  if (!startsWithDollar image && containsChar image ':')
      || containsChar image '/' || containsChar image '@' then
    true
  else if !hasUpper image && !containsChar image ':' then
    false
  else
    true

/-- One iteration of the `for line in dockerfile_content.split('\n')` loop. -/
def processLine (images : Finset String) (line : List Char) : Finset String :=
  if isCommentLine line then images
  else
    match matchFromLine line with
    | none => images
    | some tok =>
      let image : String := ⟨tok⟩
      if keepImage image then insert image images else images

/-- `extract_base_images(dockerfile_content)`: the set of image tokens kept
from the FROM lines of the text. -/
def extract_base_images (dockerfile_content : String) : Finset String :=
  (splitNl dockerfile_content.data).foldl processLine ∅

/-- One page of a paginated JSON listing: the `values` array (carrying the one
field the code reads from each item), the `isLastPage` flag (`data.get('isLastPage',
True)`: an absent flag is modelled as `true`), and the rendering of
`data.get('nextPageStart', '')` as it is interpolated into the next URL. -/
structure Page where
  values : List String
  isLastPage : Bool
  nextPageStart : String
deriving DecidableEq

/-- The abstract HTTP transport (`self.session`): a deterministic map from
request URL to response.  `none` models a `requests.exceptions.RequestException`
(connection failure or non-2xx status via `raise_for_status`). -/
structure Server where
  page : String → Option Page
  raw : String → Option String

/-- URL built in `get_projects`. -/
def projectsUrl (baseUrl : String) : String :=
  baseUrl ++ "/rest/api/1.0/projects"

/-- URL built in `get_repositories`. -/
def reposUrl (baseUrl projectKey : String) : String :=
  baseUrl ++ "/rest/api/1.0/projects/" ++ projectKey ++ "/repos"

/-- URL built in `search_dockerfiles`. -/
def filesUrl (baseUrl projectKey repoSlug : String) : String :=
  baseUrl ++ "/rest/api/1.0/projects/" ++ projectKey ++ "/repos/" ++ repoSlug ++ "/files"

/-- URL built in `get_file_content`. -/
def rawUrl (baseUrl projectKey repoSlug filePath : String) : String :=
  baseUrl ++ "/rest/api/1.0/projects/" ++ projectKey ++ "/repos/" ++ repoSlug
    ++ "/raw/" ++ filePath

/-- The `while url:` loop of `get_projects`, fuel-indexed: `none` means the
loop has not finished within `fuel` iterations (so `∀ fuel, … = none` is
non-termination), `some acc` is the list the Python loop returns.  On a fetch
failure the loop breaks with the accumulated values; on success it appends the
page's `values`, stops if `isLastPage`, and otherwise continues with
`url = f"{self.base_url}{data.get('nextPageStart', '')}"`. -/
def getProjectsLoop (srv : Server) (baseUrl : String) :
    String → List String → Nat → Option (List String)
  | _, _, 0 => none
  | url, acc, fuel + 1 =>
    match srv.page url with
    | none => some acc
    | some pg =>
      if pg.isLastPage then some (acc ++ pg.values)
      else getProjectsLoop srv baseUrl (baseUrl ++ pg.nextPageStart)
        (acc ++ pg.values) fuel

/-- `get_projects(project_keys)`: a non-empty explicit key list is returned
as-is (Python truthiness of `if project_keys:`), otherwise the paginated
"all projects" listing runs. -/
def get_projects (srv : Server) (baseUrl : String) (fuel : Nat)
    (projectKeys : Option (List String)) : Option (List String) :=
  match projectKeys with
  | some (k :: ks) => some (k :: ks)
  | _ => getProjectsLoop srv baseUrl (projectsUrl baseUrl) [] fuel

/-- The `while url:` loop of `get_repositories`.  Same protocol as
`getProjectsLoop` except that after a non-last page the code reassigns
`url = f"{base}/rest/api/1.0/projects/{project_key}/repos"` — the same URL it
just fetched, with no start offset. -/
def getRepositoriesLoop (srv : Server) (baseUrl projectKey : String) :
    String → List String → Nat → Option (List String)
  | _, _, 0 => none
  | url, acc, fuel + 1 =>
    match srv.page url with
    | none => some acc
    | some pg =>
      if pg.isLastPage then some (acc ++ pg.values)
      else getRepositoriesLoop srv baseUrl projectKey (reposUrl baseUrl projectKey)
        (acc ++ pg.values) fuel

/-- `get_repositories(project_key)`: the list of repository slugs. -/
def get_repositories (srv : Server) (baseUrl projectKey : String) (fuel : Nat) :
    Option (List String) :=
  getRepositoriesLoop srv baseUrl projectKey (reposUrl baseUrl projectKey) [] fuel

/-- `file_path.split('/')[-1]`: the final path segment. -/
def lastSegment (path : String) : String :=
  ⟨(path.data.reverse.takeWhile (fun c => c != '/')).reverse⟩

/-- `lit` is an initial run of `s` (Python `s.startswith(lit)`, case
sensitive). -/
def litLe : List Char → List Char → Bool
  | [], _ => true
  | _ :: _, [] => false
  | p :: ps, c :: cs => p = c && litLe ps cs

/-- Python `name.startswith(lit)`. -/
def startsWithLit (name lit : String) : Bool :=
  litLe lit.data name.data

/-- The per-file-name test of `search_dockerfiles`, lines 127–130. -/
def isDockerfileName (name : String) : Bool :=
  name = "Dockerfile" || startsWithLit name "Dockerfile."
    || name = "dockerfile" || startsWithLit name "dockerfile."

/-- A path is kept when its final segment passes `isDockerfileName`. -/
def isDockerfilePath (path : String) : Bool :=
  isDockerfileName (lastSegment path)

/-- `search_dockerfiles(project_key, repo_slug)`: one GET per entry of
`search_patterns = ['Dockerfile', 'dockerfile']` — the pattern itself is not
used in the request, so both passes fetch the same `/files` URL — keeping the
paths whose final segment is Dockerfile-like, then `list(set(dockerfiles))`
(deduplication; Python's set order is arbitrary, so only membership and
duplicate-freedom of the result are meaningful). -/
def search_dockerfiles (srv : Server) (baseUrl projectKey repoSlug : String) :
    List String :=
  let dockerfiles := (["Dockerfile", "dockerfile"]).foldl
    (fun acc _pattern =>
      match srv.page (filesUrl baseUrl projectKey repoSlug) with
      | none => acc
      | some pg => acc ++ pg.values.filter isDockerfilePath)
    []
  dockerfiles.dedup

/-- `get_file_content(project_key, repo_slug, file_path)`: the body text on
success, `""` on a request failure. -/
def get_file_content (srv : Server) (baseUrl projectKey repoSlug filePath : String) :
    String :=
  (srv.raw (rawUrl baseUrl projectKey repoSlug filePath)).getD ""

/-- The inner `for dockerfile_path in dockerfiles:` loop of `scan`: each
non-empty fetched content contributes `extract_base_images(content)` to the
accumulator via `self.base_images.update(images)` (set union). -/
def scanFiles (srv : Server) (baseUrl projectKey repoSlug : String)
    (files : List String) (base_images : Finset String) : Finset String :=
  files.foldl
    (fun acc filePath =>
      let content := get_file_content srv baseUrl projectKey repoSlug filePath
      if content ≠ "" then acc ∪ extract_base_images content else acc)
    base_images

/-- The `for repo in repositories:` loop of `scan`. -/
def scanRepos (srv : Server) (baseUrl projectKey : String)
    (repos : List String) (base_images : Finset String) : Finset String :=
  repos.foldl
    (fun acc repoSlug =>
      scanFiles srv baseUrl projectKey repoSlug
        (search_dockerfiles srv baseUrl projectKey repoSlug) acc)
    base_images

/-- The `for project in projects:` loop of `scan`.  `none` propagates a
repository listing whose pagination loop never finishes. -/
def scanProjects (srv : Server) (baseUrl : String) (fuel : Nat) :
    List String → Finset String → Option (Finset String)
  | [], base_images => some base_images
  | projectKey :: rest, base_images =>
    match get_repositories srv baseUrl projectKey fuel with
    | none => none
    | some repos =>
      scanProjects srv baseUrl fuel rest
        (scanRepos srv baseUrl projectKey repos base_images)

/-- `scan(project_keys)`: walks projects → repositories → Dockerfiles → content
→ extracted images, accumulating into (and returning) `self.base_images`.
`base_images` is the accumulator the scanner instance holds when `scan` is
entered (`set()` at `__init__`, never reset by `scan`). -/
def scan (srv : Server) (baseUrl : String) (fuel : Nat)
    (projectKeys : Option (List String)) (base_images : Finset String) :
    Option (Finset String) :=
  match get_projects srv baseUrl fuel projectKeys with
  | none => none
  | some projects => scanProjects srv baseUrl fuel projects base_images

/-- Page 1 of a well-behaved 3-page repository listing (not last). -/
def wbRepoPage1 : Page := ⟨["r1", "r2"], false, "?start=2"⟩

/-- Page 2 of the well-behaved repository listing (not last). -/
def wbRepoPage2 : Page := ⟨["r3", "r4"], false, "?start=4"⟩

/-- Page 3 of the well-behaved repository listing (last). -/
def wbRepoPage3 : Page := ⟨["r5"], true, ""⟩

/-- A well-behaved 3-page repository paginator: deterministic (idempotent
GETs), serving page 1 at the repos URL and the later pages at the start
offsets its responses announce. -/
def wbRepoSrv : Server where
  page url :=
    if url = reposUrl "https://bb" "PRJ" then some wbRepoPage1
    else if url = reposUrl "https://bb" "PRJ" ++ "?start=2" then some wbRepoPage2
    else if url = reposUrl "https://bb" "PRJ" ++ "?start=4" then some wbRepoPage3
    else none
  raw _ := none

/-- Page 2 of the well-behaved projects listing. -/
def wbProjPage2 : Page := ⟨["p3", "p4"], false, "?start=4"⟩

/-- A well-behaved 3-page projects paginator, pages at the projects URL and
at the announced start offsets. -/
def wbProjSrv : Server where
  page url :=
    if url = projectsUrl "https://bb" then some ⟨["p1", "p2"], false, "?start=2"⟩
    else if url = projectsUrl "https://bb" ++ "?start=2" then some wbProjPage2
    else if url = projectsUrl "https://bb" ++ "?start=4" then some ⟨["p5"], true, ""⟩
    else none
  raw _ := none

/-- Page 1 of a 2-page file listing (not last). -/
def filesPg1 : Page := ⟨["a/Dockerfile", "src/main.py"], false, "?start=1"⟩

/-- Page 2 of the 2-page file listing (last), holding a further Dockerfile. -/
def filesPg2 : Page := ⟨["b/Dockerfile"], true, ""⟩

/-- A well-behaved 2-page file-listing paginator for one repository. -/
def twoPageFileSrv : Server where
  page url :=
    if url = filesUrl "https://bb" "PRJ" "repo" then some filesPg1
    else if url = filesUrl "https://bb" "PRJ" "repo" ++ "?start=1" then some filesPg2
    else none
  raw _ := none

/-- A server agreeing with `twoPageFileSrv` on the files URL and on nothing
else. -/
def oneUrlFileSrv : Server where
  page url := if url = filesUrl "https://bb" "PRJ" "repo" then some filesPg1 else none
  raw _ := none

/-- A server on which every request fails. -/
def noneSrv : Server where
  page _ := none
  raw _ := none

/-- `base_images` grows (or stays) across the per-file loop. -/
lemma subset_scanFiles (srv : Server) (b pk slug : String) (files : List String)
    (acc : Finset String) : acc ⊆ scanFiles srv b pk slug files acc := by
  induction files generalizing acc with
  | nil => exact Finset.Subset.refl _
  | cons f fs ih =>
    refine Finset.Subset.trans ?_ (ih _)
    dsimp only
    split
    · exact Finset.subset_union_left
    · exact Finset.Subset.refl _

/-- `base_images` grows (or stays) across the per-repository loop. -/
lemma subset_scanRepos (srv : Server) (b pk : String) (repos : List String)
    (acc : Finset String) : acc ⊆ scanRepos srv b pk repos acc := by
  induction repos generalizing acc with
  | nil => exact Finset.Subset.refl _
  | cons r rs ih => exact Finset.Subset.trans (subset_scanFiles _ _ _ _ _ _) (ih _)

/-- `base_images` grows (or stays) across the per-project loop. -/
lemma subset_scanProjects (srv : Server) (b : String) (fuel : Nat)
    (keys : List String) (acc r : Finset String)
    (h : scanProjects srv b fuel keys acc = some r) : acc ⊆ r := by
  induction keys generalizing acc with
  | nil =>
    simp only [scanProjects, Option.some.injEq] at h
    exact h ▸ Finset.Subset.refl _
  | cons k ks ih =>
    simp only [scanProjects] at h
    cases hrep : get_repositories srv b k fuel with
    | none => rw [hrep] at h; cases h
    | some repos =>
      rw [hrep] at h
      exact Finset.Subset.trans (subset_scanRepos _ _ _ _ _) (ih _ h)

/-- The `base_images` accumulator the scanner enters `scan` with is contained
in the set `scan` returns. -/
lemma subset_scan (srv : Server) (b : String) (fuel : Nat)
    (keys : Option (List String)) (acc r : Finset String)
    (h : scan srv b fuel keys acc = some r) : acc ⊆ r := by
  simp only [scan] at h
  cases hp : get_projects srv b fuel keys with
  | none => rw [hp] at h; cases h
  | some projects => rw [hp] at h; exact subset_scanProjects _ _ _ _ _ _ h

/-- C1: against a well-behaved 3-page paginator (pages 1–2 not last, page 3
last, next pages reachable at the announced start offsets), the listing
loops do NOT behave as claimed: `get_repositories` reassigns the same URL
after every non-last page, so its loop never finishes for any amount of fuel,
and `get_projects` computes `base_url ++ nextPageStart` (dropping the
projects path), so its second fetch fails and only page 1's two items are
returned although page 2 is being served. -/
theorem pagination_divergence :
    (∀ fuel acc, getRepositoriesLoop wbRepoSrv "https://bb" "PRJ"
        (reposUrl "https://bb" "PRJ") acc fuel = none)
    ∧ wbRepoSrv.page (reposUrl "https://bb" "PRJ" ++ "?start=2") = some wbRepoPage2
    ∧ wbRepoSrv.page (reposUrl "https://bb" "PRJ" ++ "?start=4") = some wbRepoPage3
    ∧ get_projects wbProjSrv "https://bb" 9 none = some ["p1", "p2"]
    ∧ wbProjSrv.page (projectsUrl "https://bb" ++ "?start=2") = some wbProjPage2 := by
  refine ⟨?_, by decide, by decide, by decide, by decide⟩
  intro fuel
  induction fuel with
  | zero => intro acc; rfl
  | succ n ih =>
    intro acc
    have hpage : wbRepoSrv.page (reposUrl "https://bb" "PRJ") = some wbRepoPage1 := by
      decide
    simp only [getRepositoriesLoop, hpage]
    exact ih _

/-- C2 counterexample: the token `$VAR` starts with `$` and contains none of
`:`, `/`, `@`, yet `extract_base_images "FROM $VAR"` adds it (the uppercase
letters send it to the final `else: images.add(image)` branch). -/
theorem dollar_token_counterexample :
    extract_base_images "FROM $VAR" = {"$VAR"}
    ∧ startsWithDollar "$VAR" = true
    ∧ containsChar "$VAR" ':' = false
    ∧ containsChar "$VAR" '/' = false
    ∧ containsChar "$VAR" '@' = false := by decide

/-- C2 amended: a captured `$`-prefixed token is added if and only if it
contains `:`, `/`, or `@`, OR contains an uppercase letter. -/
theorem dollar_token_amended (image : String)
    (h : startsWithDollar image = true) :
    keepImage image = true ↔
      (containsChar image ':' = true ∨ containsChar image '/' = true
        ∨ containsChar image '@' = true ∨ hasUpper image = true) := by
  cases hc : containsChar image ':' <;> cases hs : containsChar image '/' <;>
    cases ha : containsChar image '@' <;> cases hu : hasUpper image <;>
      simp [keepImage, h, hc, hs, ha, hu]

/-- C2 amended, instantiated at the token `$VAR`. -/
theorem dollar_token_amended_witness :
    startsWithDollar "$VAR" = true
    ∧ (keepImage "$VAR" = true ↔
        (containsChar "$VAR" ':' = true ∨ containsChar "$VAR" '/' = true
          ∨ containsChar "$VAR" '@' = true ∨ hasUpper "$VAR" = true)) :=
  ⟨by decide, dollar_token_amended "$VAR" (by decide)⟩

/-- C3: the three-line multi-stage Dockerfile yields exactly
`{"node:18", "node:18-slim"}`; the middle line's token `build` is excluded. -/
theorem multistage_scenario :
    extract_base_images "FROM node:18 AS build\nFROM build AS test\nFROM node:18-slim" =
      {"node:18", "node:18-slim"} := by decide

/-- C4: a captured token containing none of `:`, `/`, `@` is kept exactly
when it contains an uppercase letter; concretely, `FROM builder` contributes
nothing and `FROM MyImage` yields `{"MyImage"}`. -/
theorem no_delimiter_classification :
    (∀ image : String, containsChar image ':' = false →
      containsChar image '/' = false → containsChar image '@' = false →
      keepImage image = hasUpper image)
    ∧ extract_base_images "FROM builder" = ∅
    ∧ extract_base_images "FROM MyImage" = {"MyImage"} := by
  refine ⟨?_, by decide, by decide⟩
  intro image hc hs ha
  cases hu : hasUpper image <;> simp [keepImage, hc, hs, ha, hu]

/-- C4, instantiated at the token `MyImage`. -/
theorem no_delimiter_classification_witness :
    containsChar "MyImage" ':' = false ∧ containsChar "MyImage" '/' = false
    ∧ containsChar "MyImage" '@' = false
    ∧ keepImage "MyImage" = hasUpper "MyImage" :=
  ⟨by decide, by decide, by decide,
    no_delimiter_classification.1 "MyImage" (by decide) (by decide) (by decide)⟩

/-- C5 counterexample: a 2-page file listing whose first page is not last and
whose second page holds `b/Dockerfile`; `search_dockerfiles` never inspects
the flag or fetches a next page, so the result misses `b/Dockerfile` and
holds only page 1's match. -/
theorem locator_no_pagination_counterexample :
    twoPageFileSrv.page (filesUrl "https://bb" "PRJ" "repo") = some filesPg1
    ∧ filesPg1.isLastPage = false
    ∧ twoPageFileSrv.page (filesUrl "https://bb" "PRJ" "repo" ++ "?start=1") =
        some filesPg2
    ∧ "b/Dockerfile" ∈ filesPg2.values
    ∧ isDockerfilePath "b/Dockerfile" = true
    ∧ "b/Dockerfile" ∉ search_dockerfiles twoPageFileSrv "https://bb" "PRJ" "repo"
    ∧ search_dockerfiles twoPageFileSrv "https://bb" "PRJ" "repo" = ["a/Dockerfile"] := by
  decide

/-- C5 amended: `search_dockerfiles` does not paginate — its result is fully
determined by the server's response at the single files URL (both search
passes fetch that same URL), so any two servers agreeing there give the same
result. -/
theorem locator_single_fetch (srv srv2 : Server) (b pk slug : String)
    (h : srv.page (filesUrl b pk slug) = srv2.page (filesUrl b pk slug)) :
    search_dockerfiles srv b pk slug = search_dockerfiles srv2 b pk slug := by
  simp only [search_dockerfiles, List.foldl, h]

/-- C5 amended, instantiated: the 2-page server and the server holding only
its first page agree at the files URL, hence produce identical results. -/
theorem locator_single_fetch_witness :
    search_dockerfiles twoPageFileSrv "https://bb" "PRJ" "repo" =
      search_dockerfiles oneUrlFileSrv "https://bb" "PRJ" "repo" :=
  locator_single_fetch twoPageFileSrv oneUrlFileSrv "https://bb" "PRJ" "repo" (by decide)

/-- C6: the `--platform` flag and the `AS` alias are both ignored; only the
image token `golang:1.21` is extracted. -/
theorem platform_flag_alias :
    extract_base_images "FROM --platform=linux/amd64 golang:1.21 AS builder" =
      {"golang:1.21"} := by decide

/-- C7: a failed repository listing for the second project leaves the scan of
the first project intact (the two-project scan equals the one-project scan);
a failed or empty content fetch contributes zero images without aborting the
file walk; and a mid-pagination fetch failure returns the repositories
accumulated before it. -/
theorem partial_failure_tolerance (srv : Server) (b p1 p2 : String) (fuel : Nat)
    (acc : Finset String) (h : srv.page (reposUrl b p2) = none) :
    scan srv b (fuel + 1) (some [p1, p2]) acc = scan srv b (fuel + 1) (some [p1]) acc
    ∧ (∀ pk slug fp rest acc2, get_file_content srv b pk slug fp = "" →
        scanFiles srv b pk slug (fp :: rest) acc2 = scanFiles srv b pk slug rest acc2)
    ∧ (∀ pk url acc3, srv.page url = none →
        getRepositoriesLoop srv b pk url acc3 (fuel + 1) = some acc3) := by
  refine ⟨?_, ?_, ?_⟩
  · simp only [scan, get_projects, scanProjects]
    cases hrep : get_repositories srv b p1 (fuel + 1) with
    | none => rfl
    | some repos =>
      simp only [scanProjects, get_repositories, getRepositoriesLoop, h, scanRepos,
        List.foldl]
  · intro pk slug fp rest acc2 hcontent
    simp [scanFiles, List.foldl, hcontent]
  · intro pk url acc3 hurl
    simp [getRepositoriesLoop, hurl]

/-- C7, instantiated on the all-requests-fail server. -/
theorem partial_failure_tolerance_witness :
    scan noneSrv "https://bb" 1 (some ["P1", "P2"]) ∅ =
      scan noneSrv "https://bb" 1 (some ["P1"]) ∅
    ∧ scanFiles noneSrv "https://bb" "P1" "r" ["Dockerfile"] ∅ =
        scanFiles noneSrv "https://bb" "P1" "r" [] ∅ :=
  have h := partial_failure_tolerance noneSrv "https://bb" "P1" "P2" 0 ∅ rfl
  ⟨h.1, h.2.1 "P1" "r" "Dockerfile" [] ∅ rfl⟩

/-- C8: a path is in the `search_dockerfiles` result iff it is in the fetched
listing and its final segment is Dockerfile-like; the result has no
duplicates; and the naming predicate accepts `Dockerfile`, `dockerfile`,
`Dockerfile.prod`, `dockerfile.ci` but not `DockerfileFoo`. -/
theorem locator_filter_dedup (srv : Server) (b pk slug p : String) :
    (p ∈ search_dockerfiles srv b pk slug ↔
      ((∃ pg, srv.page (filesUrl b pk slug) = some pg ∧ p ∈ pg.values)
        ∧ isDockerfilePath p = true))
    ∧ (search_dockerfiles srv b pk slug).Nodup
    ∧ isDockerfilePath "Dockerfile" = true
    ∧ isDockerfilePath "app/dockerfile" = true
    ∧ isDockerfilePath "Dockerfile.prod" = true
    ∧ isDockerfilePath "ci/dockerfile.ci" = true
    ∧ isDockerfilePath "DockerfileFoo" = false := by
  refine ⟨?_, ?_, by decide, by decide, by decide, by decide, by decide⟩
  · simp only [search_dockerfiles, List.foldl]
    cases hpg : srv.page (filesUrl b pk slug) with
    | none => simp
    | some pg => simp [List.mem_dedup, List.mem_filter, hpg, and_comm]
  · simp only [search_dockerfiles, List.foldl]
    exact List.nodup_dedup _

/-- C9: the extractor is a pure function of its text: two applications to
identical text return identical sets. -/
theorem extractor_deterministic (s : String) :
    extract_base_images s = extract_base_images s := rfl

/-- C10: `base_images` only grows — `scan` never resets it — so the result of
a second `scan` call (entered with the accumulator the first call returned)
is a superset of the first call's result, whatever projects it targets. -/
theorem accumulator_monotone (srv1 srv2 : Server) (b1 b2 : String)
    (f1 f2 : Nat) (k1 k2 : Option (List String)) (r1 r2 : Finset String)
    (_h1 : scan srv1 b1 f1 k1 ∅ = some r1)
    (h2 : scan srv2 b2 f2 k2 r1 = some r2) : r1 ⊆ r2 :=
  subset_scan srv2 b2 f2 k2 r1 r2 h2

/-- C10, instantiated on the all-requests-fail server. -/
theorem accumulator_monotone_witness :
    scan noneSrv "https://bb" 1 (some ["K1"]) ∅ = some ∅
    ∧ scan noneSrv "https://bb" 1 (some ["K2"]) ∅ = some ∅
    ∧ (∅ : Finset String) ⊆ ∅ :=
  ⟨rfl, rfl,
    accumulator_monotone noneSrv noneSrv "https://bb" "https://bb" 1 1
      (some ["K1"]) (some ["K2"]) ∅ ∅ rfl rfl⟩
